import Mathlib

/-!
Shallow embedding of the resilient download orchestration engine of the
YouTube video/playlist downloader repository, together with proofs that
check the natural-language specification against the code.

The embedding covers:
* `app/components/progress_tracker.py` — the `ProgressTracker` class over a
  heap model (Python records are mutable objects shared by reference, so the
  tracker state is a store of object references plus a dictionary from video
  id to reference);
* `src/models/video.py` and `src/models/playlist.py` — the data models,
  in particular `PlaylistDownloadResult.__post_init__`;
* `app/config.py` `download_playlist` — the playlist selection filters;
* `src/downloader/youtube_dl.py` — `download_video`,
  `_try_download_strategies` and `_execute_download` over an abstract
  yt-dlp backend;
* `src/utils/validators.py` — the `URLValidator` regex patterns as
  executable matchers over `List Char`.
-/

namespace ProgressTrackerModel

/-- The `DownloadProgress` dataclass of `app/components/progress_tracker.py`.
`status` ranges over the source's string constants
`"pending"`, `"downloading"`, `"completed"`, `"failed"`; `progress` is the
stored progress fraction (a Python float that the tracker only stores and
never computes with, modelled as `ℚ`). -/
structure DownloadProgress where
  video_id : String
  title : String
  status : String
  progress : ℚ
  speed : String
  eta : String
  file_size : String
  error_message : Option String
deriving DecidableEq, Repr

/-- Python records are mutable objects: the tracker's `self.downloads` dict
maps a video id to an object reference, and the objects live in a store.
`store` is append-only on allocation and updated in place on mutation;
`dict` keeps Python's insertion order, and `nextRef` is the next fresh
object reference. -/
structure TrackerState where
  store : List (Nat × DownloadProgress)
  dict : List (String × Nat)
  nextRef : Nat
deriving DecidableEq, Repr

def emptyTracker : TrackerState := ⟨[], [], 0⟩

/-- Dictionary assignment `d[k] = v`: replace in place if the key is
present (Python dicts keep the original position), else append. -/
def dictSet : List (String × Nat) → String → Nat → List (String × Nat)
  | [], k, v => [(k, v)]
  | (k', v') :: rest, k, v =>
      if k' = k then (k, v) :: rest else (k', v') :: dictSet rest k v

/-- Dictionary lookup `d[k]` / `k in d`. -/
def dictGet : List (String × Nat) → String → Option Nat
  | [], _ => none
  | (k', v') :: rest, k => if k' = k then some v' else dictGet rest k

/-- Read the object a reference denotes.  The newest binding of a
reference wins, matching allocation of a fresh object. -/
def storeGet (s : List (Nat × DownloadProgress)) (r : Nat) :
    Option DownloadProgress :=
  (s.reverse.find? (fun e => e.1 = r)).map (·.2)

/-- Mutate the object a reference denotes, in place. -/
def storeSet (s : List (Nat × DownloadProgress)) (r : Nat)
    (v : DownloadProgress) : List (Nat × DownloadProgress) :=
  s.map (fun e => if e.1 = r then (e.1, v) else e)

/-- Method `ProgressTracker.add_download`: always allocates a fresh
`DownloadProgress` object with status `"pending"` and progress `0.0` and
binds it to `video_id` in the dict — there is no presence check in the
source, so an existing binding is overwritten. -/
def add_download (st : TrackerState) (video_id title : String) :
    TrackerState :=
  let rec' : DownloadProgress :=
    ⟨video_id, title, "pending", 0, "", "", "", none⟩
  ⟨st.store ++ [(st.nextRef, rec')], dictSet st.dict video_id st.nextRef,
    st.nextRef + 1⟩

/-- Method `ProgressTracker.update_progress`: when the id is tracked, mutates the
record's `progress`, `speed`, `eta`, `file_size` fields in place, and sets
`status` to `"downloading"` when `progress > 0`.  The progress value is
stored exactly as supplied — there is no clamping. -/
def update_progress (st : TrackerState) (video_id : String) (progress : ℚ)
    (speed eta file_size : String) : TrackerState :=
  match dictGet st.dict video_id with
  | none => st
  | some r =>
    match storeGet st.store r with
    | none => st
    | some v =>
      let v' : DownloadProgress :=
        { v with progress := progress, speed := speed, eta := eta,
                 file_size := file_size,
                 status := if 0 < progress then "downloading" else v.status }
      { st with store := storeSet st.store r v' }

/-- Method `ProgressTracker.mark_completed`: sets status `"completed"` and forces
progress to `1.0`. -/
def mark_completed (st : TrackerState) (video_id : String) : TrackerState :=
  match dictGet st.dict video_id with
  | none => st
  | some r =>
    match storeGet st.store r with
    | none => st
    | some v =>
      let v' : DownloadProgress :=
        { v with status := "completed", progress := 1 }
      { st with store := storeSet st.store r v' }

/-- Method `ProgressTracker.mark_failed`: sets status `"failed"` and stores the
error message; the progress field is not touched. -/
def mark_failed (st : TrackerState) (video_id error_message : String) :
    TrackerState :=
  match dictGet st.dict video_id with
  | none => st
  | some r =>
    match storeGet st.store r with
    | none => st
    | some v =>
      let v' : DownloadProgress :=
        { v with status := "failed", error_message := some error_message }
      { st with store := storeSet st.store r v' }

/-- Method `ProgressTracker.get_all_downloads`: `list(self.downloads.values())`
copies the *list*, but its elements are the live record objects — so the
snapshot is the list of object references in dict order. -/
def get_all_downloads (st : TrackerState) : List Nat :=
  st.dict.map (·.2)

/-- Method `ProgressTracker.clear_completed`: rebuilds the dict keeping the
entries whose record's status is not `"completed"`; the store (the
objects themselves) is untouched. -/
def clear_completed (st : TrackerState) : TrackerState :=
  { st with dict := st.dict.filter (fun e =>
      match storeGet st.store e.2 with
      | some v => v.status ≠ "completed"
      | none => True) }

/-- Dereference a previously returned snapshot in a (possibly later)
state: reading `snapshot[i]`'s fields goes through the live objects. -/
def readSnapshot (st : TrackerState) (snap : List Nat) :
    List (Option DownloadProgress) :=
  snap.map (storeGet st.store)

/-- The record currently associated with an id, as a caller observes it. -/
def getRecord (st : TrackerState) (video_id : String) :
    Option DownloadProgress :=
  (dictGet st.dict video_id).bind (storeGet st.store)

/-- One tracker call, for reasoning about arbitrary call sequences. -/
inductive TrackerOp where
  | reg (video_id title : String)
  | upd (video_id : String) (progress : ℚ) (speed eta file_size : String)
  | complete (video_id : String)
  | fail (video_id error_message : String)
  | clear
deriving DecidableEq

def applyOp (st : TrackerState) : TrackerOp → TrackerState
  | .reg i t => add_download st i t
  | .upd i p s e f => update_progress st i p s e f
  | .complete i => mark_completed st i
  | .fail i m => mark_failed st i m
  | .clear => clear_completed st

def runOps (ops : List TrackerOp) : TrackerState :=
  ops.foldl applyOp emptyTracker

/-- An update call whose progress argument lies in `[0, 1]`. -/
def OpInRange : TrackerOp → Prop
  | .upd _ p _ _ _ => 0 ≤ p ∧ p ≤ 1
  | _ => True

instance : DecidablePred OpInRange := fun op => by
  cases op <;> simp only [OpInRange] <;> infer_instance

/-- Every record in the store has progress in `[0, 1]`. -/
def StoreInRange (st : TrackerState) : Prop :=
  ∀ e ∈ st.store, 0 ≤ e.2.progress ∧ e.2.progress ≤ 1

end ProgressTrackerModel

namespace Models

/-- Helper `VideoInfo._sanitize_title` / `PlaylistInfo._sanitize_title`
(`src/models/video.py`, `src/models/playlist.py`): replace each of
`<>:"/\|?*` with `_`, then strip surrounding whitespace. -/
def sanitize_title (title : String) : String :=
  (title.map (fun c =>
    if c ∈ ['<', '>', ':', '"', '/', '\\', '|', '?', '*'] then '_' else c)).trim

/-- The `VideoInfo` dataclass of `src/models/video.py` (after
`__post_init__`, which sanitizes a non-empty title). -/
structure VideoInfo where
  id : String
  title : String
  url : String
  duration : Option Int := none
  view_count : Option Int := none
  upload_date : Option String := none
  uploader : Option String := none
  description : Option String := none
  thumbnail_url : Option String := none
deriving DecidableEq, Repr

/-- Constructor `VideoInfo(...)` construction including `__post_init__`. -/
def mkVideoInfo (v : VideoInfo) : VideoInfo :=
  if v.title ≠ "" then { v with title := sanitize_title v.title } else v

/-- The `DownloadResult` dataclass of `src/models/video.py`. -/
structure DownloadResult where
  video_info : VideoInfo
  success : Bool
  file_path : Option String := none
  filename : Option String := none
  file_size : Option Int := none
  error_message : Option String := none
  format_used : Option String := none
deriving DecidableEq, Repr

/-- The `PlaylistInfo` dataclass of `src/models/playlist.py` (after
`__post_init__`: a `None` videos list becomes `[]`, a non-empty title is
sanitized). -/
structure PlaylistInfo where
  id : String
  title : String
  url : String
  uploader : Option String := none
  description : Option String := none
  video_count : Int := 0
  videos : List VideoInfo := []
deriving DecidableEq, Repr

/-- Constructor `PlaylistInfo(...)` construction including `__post_init__`;
`videos?` is the constructor argument with its `None` default. -/
def mkPlaylistInfo (p : PlaylistInfo) (videos? : Option (List VideoInfo)) :
    PlaylistInfo :=
  let p := { p with videos := videos?.getD [] }
  if p.title ≠ "" then { p with title := sanitize_title p.title } else p

/-- The `PlaylistDownloadResult` dataclass of `src/models/playlist.py`.
`total_successful` and `total_failed` are constructor fields, but
`__post_init__` overwrites both. -/
structure PlaylistDownloadResult where
  playlist_info : PlaylistInfo
  download_results : List DownloadResult
  total_requested : Int
  total_successful : Int
  total_failed : Int
  zip_file_path : Option String := none
  zip_file_size : Option Int := none
  total_download_time : Option ℚ := none
deriving DecidableEq, Repr

/-- Constructor `PlaylistDownloadResult(...)` construction including `__post_init__`:
`total_successful = sum(1 for r in download_results if r.success)` and
`total_failed = len(download_results) - total_successful`, regardless of
the values the caller passed for the two count fields. -/
def mkPlaylistDownloadResult (r : PlaylistDownloadResult) :
    PlaylistDownloadResult :=
  let succ : Int := r.download_results.countP (·.success)
  { r with total_successful := succ,
           total_failed := (r.download_results.length : Int) - succ }

end Models

namespace BatchSelection

/-- The options dict assembled by `_render_playlist_form`
(`app/components/download_form.py`): all five keys are present, including
`reverse_order` and `skip_unavailable`. -/
structure PlaylistOptions where
  start_index : Int
  end_index : Int
  reverse_order : Bool
  skip_unavailable : Bool
  max_videos : Int
deriving DecidableEq, Repr

/-- Python index resolution for a slice bound on a list of length `len`:
a negative bound counts from the end (clamped below at `0`), a
non-negative bound is clamped above at `len`. -/
def pyIdx (len : Nat) (i : Int) : Nat :=
  if i < 0 then ((len : Int) + i).toNat else min i.toNat len

/-- Python slice `l[a:b]`. -/
def pySlice (a b : Int) (l : List α) : List α :=
  (l.take (pyIdx l.length b)).drop (pyIdx l.length a)

/-- The selection-filter block of `download_playlist` in `app/config.py`
(lines 592-596):
`start_idx = max(0, options.get('start_index', 1) - 1)`,
`end_idx = min(total_videos, options.get('end_index', total_videos) or
total_videos)` (Python `or`: `0` falls back to the total),
`max_videos = min(options.get('max_videos', 50), 50)`,
`filtered_videos = videos[start_idx:end_idx][:max_videos]`.
Note that `options['reverse_order']` and `options['skip_unavailable']`
are never read.  -/
def select_videos (videos : List α) (options : PlaylistOptions) : List α :=
  let total : Int := videos.length
  let start_idx : Int := max 0 (options.start_index - 1)
  let end_idx : Int :=
    min total (if options.end_index = 0 then total else options.end_index)
  let max_videos : Int := min options.max_videos 50
  pySlice 0 max_videos (pySlice start_idx end_idx videos)

end BatchSelection

namespace Downloader

/-- Substring test on character lists: the needle occurs as a prefix of
some suffix. -/
def listContains (needle : List Char) : List Char → Bool
  | [] => needle.isPrefixOf []
  | c :: cs => needle.isPrefixOf (c :: cs) || listContains needle cs

/-- Substring test, Python's `"x" in s`. -/
def strContains (needle s : String) : Bool :=
  listContains needle.toList s.toList

/-- What the abstract yt-dlp backend does on one call inside
`_execute_download` (`src/downloader/youtube_dl.py`): the info extraction
can return nothing, the whole extract/download/locate sequence can
succeed with the artifact found or not found, `yt_dlp.utils.DownloadError`
can be raised with a message, or some other exception can be raised. -/
inductive YdlOutcome where
  | infoNone
  | okFound (title : String) (filename : String) (file_path : String)
      (duration : Int) (view_count : Int) (video_id : String)
  | okMissing
  | downloadError (msg : String)
  | raised (msg : String)
deriving DecidableEq, Repr

/-- The result dict a download routine returns: `{'success': True, ...}`
with the artifact payload, or `{'success': False, 'error': ...}`. -/
inductive DlResult where
  | success (title : String) (filename : String) (file_path : String)
      (duration : Int) (view_count : Int) (video_id : String)
  | failure (error : String)
deriving DecidableEq, Repr

def DlResult.isSuccess : DlResult → Bool
  | .success .. => true
  | .failure _ => false

/-- Method `EnhancedYouTubeDownloader._execute_download`: wraps one backend call
and classifies `DownloadError` text by its status markers — an error
message containing `"403"` becomes the access-forbidden message, one
containing `"404"` the not-found message, anything else is surfaced as
`'Download error: ...'`; other exceptions become `'Unexpected error: ...'`. -/
def execute_download (call : YdlOutcome) : DlResult :=
  match call with
  | .infoNone => .failure "Could not extract video information"
  | .okFound t fn fp d vc vid => .success t fn fp d vc vid
  | .okMissing => .failure "Download completed but file not found"
  | .downloadError msg =>
      if strContains "403" msg then
        .failure "Video access forbidden (403). Video may be restricted or private."
      else if strContains "404" msg then
        .failure "Video not found (404). Video may have been deleted."
      else
        .failure ("Download error: " ++ msg)
  | .raised msg => .failure ("Unexpected error: " ++ msg)

/-- The number of entries in the `strategies` list of
`_try_download_strategies`: `[_strategy_standard,
_strategy_fallback_quality, _strategy_audio_fallback,
_strategy_minimal_options]`. -/
def strategyCount : Nat := 4

/-- The loop body of `_try_download_strategies`: try the remaining
strategies in order against the backend (indexed by a global call
counter `k`), returning the first successful result dict; a
non-successful dict or a caught exception moves on to the next strategy;
when the list is exhausted return
`{'success': False, 'error': 'All download strategies failed'}`.
The pair's second component is the call counter after the loop. -/
def tryStrategiesFrom (backend : Nat → YdlOutcome) :
    Nat → Nat → DlResult × Nat
  | 0, k => (.failure "All download strategies failed", k)
  | n + 1, k =>
      match execute_download (backend k) with
      | .success t fn fp d vc vid => (.success t fn fp d vc vid, k + 1)
      | .failure _ => tryStrategiesFrom backend n (k + 1)

/-- Method `EnhancedYouTubeDownloader._try_download_strategies`. -/
def try_download_strategies (backend : Nat → YdlOutcome) (k : Nat) :
    DlResult × Nat :=
  tryStrategiesFrom backend strategyCount k

/-- The attempt loop of `EnhancedYouTubeDownloader.download_video`:
`for attempt in range(retry_count)` run the strategies; a successful
result is returned immediately, a failed one is only logged
(`result.get('error', ...)`) and the loop continues; after the loop the
returned dict is `{'success': False, 'error': f"Failed after
{retry_count} attempts"}`.  (`_try_download_strategies` catches every
strategy exception itself, so `download_video`'s own `except` branch —
the only place the last error text would be surfaced — is unreachable.) -/
def downloadVideoLoop (backend : Nat → YdlOutcome) (retry_count : Nat) :
    Nat → Nat → DlResult × Nat
  | 0, k =>
      (.failure ("Failed after " ++ toString retry_count ++ " attempts"), k)
  | n + 1, k =>
      match try_download_strategies backend k with
      | (.success t fn fp d vc vid, k') => (.success t fn fp d vc vid, k')
      | (.failure _, k') => downloadVideoLoop backend retry_count n k'

/-- Method `EnhancedYouTubeDownloader.download_video(url, retry_count)` against
an abstract backend; the second component counts the backend calls made. -/
def download_video (backend : Nat → YdlOutcome) (retry_count : Nat) :
    DlResult × Nat :=
  downloadVideoLoop backend retry_count retry_count 0

/-- The error classification the presentation layer applies to a failure
text (`show_troubleshooting_suggestions` in `app/config.py`): `403` /
`Forbidden` markers, `404` / `not found` markers, a `timeout` marker,
else uncategorized. -/
inductive ErrorClass where
  | accessForbidden
  | notFound
  | timeout
  | other
deriving DecidableEq, Repr

def classify_error_message (msg : String) : ErrorClass :=
  if strContains "403" msg || strContains "Forbidden" msg then
    .accessForbidden
  else if strContains "404" msg || strContains "not found" msg then
    .notFound
  else if strContains "timeout" (String.mk (msg.toList.map Char.toLower)) then
    .timeout
  else .other

/-- A backend stub whose calls all raise `DownloadError` with a `403`
marker. -/
def backend403 : Nat → YdlOutcome :=
  fun _ => .downloadError "HTTP Error 403: Forbidden"

end Downloader

namespace URLValidator

/-! Executable embedding of the `re.match`-based `URLValidator` of
`src/utils/validators.py`.  `re.match` anchors at the start of the string
and leaves the rest unconstrained, so each pattern is a prefix matcher
returning its capture group.  The optional groups `(?:https?://)?`,
`(?:www\.)?` and `(?:m\.)?` are implemented as deterministic
strip-if-present steps: whenever such a prefix is present but the rest
of the pattern later fails, the regex's backtracking alternative (skip
the group) also fails immediately, because every follow-up literal starts
with a different character (`h` vs `w`/`m`/`y`), so no match is lost. -/

/-- Character class `[a-zA-Z0-9_-]` (ASCII, as Python `re` on `str` with
this explicit class). -/
def idChar (c : Char) : Bool :=
  ('a' ≤ c && c ≤ 'z') || ('A' ≤ c && c ≤ 'Z') || ('0' ≤ c && c ≤ '9') ||
    c = '_' || c = '-'

/-- Match a literal at the head of the input, returning the remainder. -/
def stripLit : List Char → List Char → Option (List Char)
  | [], s => some s
  | _ :: _, [] => none
  | l :: ls, c :: cs => if c = l then stripLit ls cs else none

/-- Regex fragment `(?:https?://)?`: the greedy `s?` is deterministic
because `"http" ++ "://"` cannot match when the character after `http`
is `s`. -/
def stripScheme (s : List Char) : List Char :=
  match stripLit "https://".toList s with
  | some r => r
  | none =>
    match stripLit "http://".toList s with
    | some r => r
    | none => s

/-- Optional literal fragment such as `(?:www\.)?` or `(?:m\.)?`. -/
def stripOpt (lit : List Char) (s : List Char) : List Char :=
  match stripLit lit s with
  | some r => r
  | none => s

/-- Regex fragment `([a-zA-Z0-9_-]{11})`: capture exactly 11 id
characters (the rest of the input is unconstrained under `re.match`). -/
def takeCount : Nat → List Char → Option (List Char)
  | 0, _ => some []
  | _ + 1, [] => none
  | n + 1, c :: cs => if idChar c then (takeCount n cs).map (c :: ·) else none

/-- One video pattern
`(?:https?://)?(?:<sub>)?<body>([a-zA-Z0-9_-]{11})`, returning the
captured 11-character id. -/
def matchVideoPattern (sub body : List Char) (s : List Char) :
    Option (List Char) :=
  match stripLit body (stripOpt sub (stripScheme s)) with
  | some rest => takeCount 11 rest
  | none => none

/-- The four entries of `URLValidator.YOUTUBE_VIDEO_PATTERNS`, tried in
order; the result is the first pattern's capture group. -/
def videoPatternsMatch (s : List Char) : Option (List Char) :=
  match matchVideoPattern "www.".toList "youtube.com/watch?v=".toList s with
  | some v => some v
  | none =>
    match matchVideoPattern "www.".toList "youtu.be/".toList s with
    | some v => some v
    | none =>
      match matchVideoPattern "www.".toList "youtube.com/shorts/".toList s with
      | some v => some v
      | none => matchVideoPattern "m.".toList "youtube.com/watch?v=".toList s

/-- Playlist pattern 1:
`(?:https?://)?(?:www\.)?youtube\.com/playlist\?list=([a-zA-Z0-9_-]+)`;
the greedy `+` captures the maximal run of id characters. -/
def matchPlaylistPattern1 (s : List Char) : Option (List Char) :=
  match stripLit "youtube.com/playlist?list=".toList
      (stripOpt "www.".toList (stripScheme s)) with
  | some rest =>
      if (rest.takeWhile idChar).isEmpty then none
      else some (rest.takeWhile idChar)
  | none => none

/-- Regex fragment `.*list=([a-zA-Z0-9_-]+)` of playlist pattern 2: the
greedy `.*` (which does not cross a newline) selects the **last**
occurrence of `list=` that is followed by at least one id character; the
capture is the maximal id-character run after it. -/
def lastListCapture : List Char → Option (List Char)
  | [] => none
  | c :: cs =>
      if c = '\n' then none
      else
        match lastListCapture cs with
        | some r => some r
        | none =>
          match stripLit "list=".toList (c :: cs) with
          | some rest =>
              if (rest.takeWhile idChar).isEmpty then none
              else some (rest.takeWhile idChar)
          | none => none

/-- Playlist pattern 2:
`(?:https?://)?(?:www\.)?youtube\.com/watch\?.*list=([a-zA-Z0-9_-]+)`. -/
def matchPlaylistPattern2 (s : List Char) : Option (List Char) :=
  match stripLit "youtube.com/watch?".toList
      (stripOpt "www.".toList (stripScheme s)) with
  | some rest => lastListCapture rest
  | none => none

/-- The two entries of `URLValidator.YOUTUBE_PLAYLIST_PATTERNS`, in
order. -/
def playlistPatternsMatch (s : List Char) : Option (List Char) :=
  match matchPlaylistPattern1 s with
  | some v => some v
  | none => matchPlaylistPattern2 s

/-- Method `URLValidator.is_valid_youtube_url`: an empty string is
rejected up front (`if not url`), otherwise some video pattern must
match. -/
def is_valid_youtube_url : List Char → Bool
  | [] => false
  | c :: cs => (videoPatternsMatch (c :: cs)).isSome

/-- Method `URLValidator.is_valid_youtube_playlist_url`. -/
def is_valid_youtube_playlist_url : List Char → Bool
  | [] => false
  | c :: cs => (playlistPatternsMatch (c :: cs)).isSome

/-- Method `URLValidator.extract_video_id`: the first matching video
pattern's group 1, else `None`. -/
def extract_video_id (s : List Char) : Option (List Char) :=
  videoPatternsMatch s

/-- Method `URLValidator.extract_playlist_id`. -/
def extract_playlist_id (s : List Char) : Option (List Char) :=
  playlistPatternsMatch s

/-- Canonical single-video form produced by `normalize_url`. -/
def videoCanon (vid : List Char) : List Char :=
  "https://www.youtube.com/watch?v=".toList ++ vid

/-- Canonical playlist form produced by `normalize_url`. -/
def playlistCanon (pid : List Char) : List Char :=
  "https://www.youtube.com/playlist?list=".toList ++ pid

/-- Method `URLValidator.normalize_url`: a valid video URL with a truthy
(non-empty) extracted id becomes the canonical watch URL; otherwise a
valid playlist URL with a truthy extracted id becomes the canonical
playlist URL; otherwise the input is returned unchanged. -/
def normalize_url (s : List Char) : List Char :=
  let videoResult : Option (List Char) :=
    if is_valid_youtube_url s then
      match extract_video_id s with
      | some vid => if vid.isEmpty then none else some (videoCanon vid)
      | none => none
    else none
  match videoResult with
  | some r => r
  | none =>
    if is_valid_youtube_playlist_url s then
      match extract_playlist_id s with
      | some pid => if pid.isEmpty then s else playlistCanon pid
      | none => s
    else s

/-- Classification kind of §4.1 of the specification. -/
inductive UrlKind where
  | single
  | collection
  | invalid
deriving DecidableEq, Repr

/-- The §4.1 classifier assembled from the source's validator functions,
with the same precedence `normalize_url` uses (video patterns first):
kind, normalized URL, and extracted identifier. -/
def classify (s : List Char) : UrlKind × List Char × Option (List Char) :=
  if is_valid_youtube_url s then
    (.single, normalize_url s, extract_video_id s)
  else if is_valid_youtube_playlist_url s then
    (.collection, normalize_url s, extract_playlist_id s)
  else (.invalid, normalize_url s, none)

end URLValidator

/-! ## Helper lemmas for the tracker heap model -/

namespace ProgressTrackerModel

theorem dictGet_dictSet (d : List (String × Nat)) (k : String) (v : Nat) :
    dictGet (dictSet d k v) k = some v := by
  induction d with
  | nil => simp [dictSet, dictGet]
  | cons a d ih =>
      obtain ⟨k', v'⟩ := a
      by_cases h : k' = k
      · simp [dictSet, dictGet, h]
      · simp [dictSet, dictGet, h, ih]

theorem dictGet_mem_values {d : List (String × Nat)} {k : String} {r : Nat}
    (h : dictGet d k = some r) : r ∈ d.map (·.2) := by
  induction d with
  | nil => simp [dictGet] at h
  | cons a d ih =>
      obtain ⟨k', v'⟩ := a
      by_cases hk : k' = k
      · simp [dictGet, hk] at h
        simp [h]
      · simp [dictGet, hk] at h
        simp [ih h]

theorem storeGet_append_last (s : List (Nat × DownloadProgress)) (r : Nat)
    (v : DownloadProgress) : storeGet (s ++ [(r, v)]) r = some v := by
  simp [storeGet, List.reverse_append, List.find?]

theorem find?_map_overwrite {r : Nat} {v' : DownloadProgress}
    (l : List (Nat × DownloadProgress))
    (h : (l.find? (fun e => e.1 = r)).isSome) :
    ((l.map (fun e => if e.1 = r then (e.1, v') else e)).find?
      (fun e => e.1 = r)) = some (r, v') := by
  induction l with
  | nil => simp [List.find?] at h
  | cons a l ih =>
      by_cases ha : a.1 = r
      · simp [List.find?_cons_of_pos, ha]
      · rw [List.find?_cons_of_neg _ (by simp [ha])] at h
        rw [List.map_cons, if_neg ha,
          List.find?_cons_of_neg _ (by simp [ha])]
        exact ih h

theorem storeGet_storeSet {s : List (Nat × DownloadProgress)} {r : Nat}
    {v v' : DownloadProgress} (h : storeGet s r = some v) :
    storeGet (storeSet s r v') r = some v' := by
  have hs : ((s.reverse).find? (fun e => e.1 = r)).isSome := by
    simp only [storeGet] at h
    cases hf : (s.reverse).find? (fun e => e.1 = r) with
    | none => rw [hf] at h; simp at h
    | some a => simp [hf]
  simp only [storeGet, storeSet, ← List.map_reverse]
  rw [find?_map_overwrite _ hs]
  rfl

theorem storeGet_mem {s : List (Nat × DownloadProgress)} {r : Nat}
    {v : DownloadProgress} (h : storeGet s r = some v) : (r, v) ∈ s := by
  simp only [storeGet] at h
  cases hf : (s.reverse).find? (fun e => e.1 = r) with
  | none => rw [hf] at h; simp at h
  | some a =>
      rw [hf] at h
      have ha : a ∈ s.reverse := List.mem_of_find?_eq_some hf
      have hp := List.find?_some
        (p := fun (e : Nat × DownloadProgress) => decide (e.1 = r)) hf
      have h2 : a.2 = v := by simpa using h
      simp only [decide_eq_true_eq] at hp
      obtain ⟨a1, a2⟩ := a
      simp only at h2 hp
      subst h2 hp
      exact List.mem_reverse.mp ha

theorem mem_storeSet {s : List (Nat × DownloadProgress)} {r : Nat}
    {v' : DownloadProgress} {e : Nat × DownloadProgress}
    (h : e ∈ storeSet s r v') : e ∈ s ∨ e.2 = v' := by
  simp only [storeSet, List.mem_map] at h
  obtain ⟨a, ha, hfa⟩ := h
  by_cases h1 : a.1 = r
  · right
    rw [if_pos h1] at hfa
    rw [← hfa]
  · left
    rw [if_neg h1] at hfa
    rw [← hfa]
    exact ha

theorem storeInRange_applyOp {st : TrackerState} {op : TrackerOp}
    (hst : StoreInRange st) (hop : OpInRange op) :
    StoreInRange (applyOp st op) := by
  cases op with
  | reg i t =>
      intro e he
      simp only [applyOp, add_download, List.mem_append, List.mem_singleton] at he
      rcases he with he | he
      · exact hst e he
      · subst he; constructor <;> norm_num
  | upd i p sp et fs =>
      obtain ⟨hp0, hp1⟩ := hop
      simp only [applyOp]
      unfold update_progress
      split
      · exact hst
      · split
        · exact hst
        · intro e he
          rcases mem_storeSet he with h | h
          · exact hst e h
          · rw [h]; exact ⟨hp0, hp1⟩
  | complete i =>
      simp only [applyOp]
      unfold mark_completed
      split
      · exact hst
      · split
        · exact hst
        · intro e he
          rcases mem_storeSet he with h | h
          · exact hst e h
          · rw [h]; constructor <;> norm_num
  | fail i m =>
      simp only [applyOp]
      unfold mark_failed
      split
      · exact hst
      · next r hd =>
        split
        · exact hst
        · next v hg =>
          intro e he
          rcases mem_storeSet he with h | h
          · exact hst e h
          · rw [h]
            exact hst (r, v) (storeGet_mem hg)
  | clear =>
      intro e he
      simp only [applyOp, clear_completed] at he
      exact hst e he

theorem update_progress_eq {st : TrackerState} {i : String} {r : Nat}
    {v : DownloadProgress} (p : ℚ) (sp et fs : String)
    (hd : dictGet st.dict i = some r) (hg : storeGet st.store r = some v) :
    update_progress st i p sp et fs =
      { st with
          store := storeSet st.store r
            ({ v with progress := p, speed := sp, eta := et, file_size := fs,
                      status := if 0 < p then "downloading"
                                else v.status }) } := by
  unfold update_progress
  split
  · next h => rw [h] at hd; exact absurd hd (by simp)
  · next r' h =>
      rw [h] at hd
      injection hd with hr
      subst hr
      split
      · next h2 => rw [h2] at hg; exact absurd hg (by simp)
      · next v' h2 =>
          rw [h2] at hg
          injection hg with hv
          subst hv
          rfl

theorem storeInRange_foldl :
    ∀ (ops : List TrackerOp) (st : TrackerState), StoreInRange st →
      (∀ op ∈ ops, OpInRange op) → StoreInRange (ops.foldl applyOp st) := by
  intro ops
  induction ops with
  | nil => intro st hst _; exact hst
  | cons op ops ih =>
      intro st hst hops
      simp only [List.foldl_cons]
      exact ih _ (storeInRange_applyOp hst (hops op (by simp)))
        (fun o ho => hops o (by simp [ho]))

end ProgressTrackerModel

/-! ## Claims about the progress tracker and the batch result model -/

open ProgressTrackerModel in
/-- C3 counterexample: `register` is *not* a no-op on an existing id.
Register `"a"`, update its progress to `1.0` (status becomes
`downloading`), then register `"a"` again: the observable record is reset
to a fresh pending one, so status, progress, speed, eta and size are all
changed by the second registration. -/
theorem c3_counterexample :
    getRecord (add_download (update_progress
        (add_download emptyTracker "a" "t") "a" 1 "9KiB/s" "00:10" "1MiB")
      "a" "t") "a" ≠
    getRecord (update_progress
        (add_download emptyTracker "a" "t") "a" 1 "9KiB/s" "00:10" "1MiB")
      "a" := by decide

open ProgressTrackerModel in
/-- C3 (corrected): for every tracker state — in particular for every
state in which the id is already present — `register(id, title)`
overwrites the id's record with a fresh Pending record with progress
`0.0` and empty speed/eta/size; re-registration resets the record rather
than leaving it unchanged. -/
theorem c3_register_overwrites (st : TrackerState) (video_id title : String) :
    getRecord (add_download st video_id title) video_id =
      some ⟨video_id, title, "pending", 0, "", "", "", none⟩ := by
  simp only [getRecord, add_download, dictGet_dictSet, Option.bind_some]
  exact storeGet_append_last st.store st.nextRef _

open ProgressTrackerModel in
/-- C4 counterexample: a snapshot is not a point-in-time copy of the
records.  Register `"a"`, take a snapshot, then update `"a"`: reading the
snapshot now yields the updated record, not the one from snapshot time. -/
theorem c4_counterexample :
    readSnapshot
        (update_progress (add_download emptyTracker "a" "t") "a" 1 "s" "e" "f")
        (get_all_downloads (add_download emptyTracker "a" "t")) ≠
      readSnapshot (add_download emptyTracker "a" "t")
        (get_all_downloads (add_download emptyTracker "a" "t")) := by decide

open ProgressTrackerModel in
/-- C4 (corrected): `snapshot()` copies only the list, not the records.
`clearCompleted` never changes what a previously returned snapshot reads
(the record objects survive), but an `update` on a tracked id mutates the
shared record in place, and the mutation is visible through every
snapshot holding that record. -/
theorem c4_snapshot_aliasing :
    (∀ (st : TrackerState) (snap : List Nat),
      readSnapshot (clear_completed st) snap = readSnapshot st snap) ∧
    (∀ (st : TrackerState) (video_id : String) (r : Nat)
      (v : DownloadProgress) (progress : ℚ) (speed eta file_size : String),
      dictGet st.dict video_id = some r →
      storeGet st.store r = some v →
      r ∈ get_all_downloads st ∧
      storeGet (update_progress st video_id progress speed eta file_size).store
          r =
        some { v with progress := progress, speed := speed, eta := eta,
                      file_size := file_size,
                      status := if 0 < progress then "downloading"
                                else v.status }) := by
  constructor
  · intro st snap
    rfl
  · intro st video_id r v progress speed eta file_size hd hg
    refine ⟨dictGet_mem_values hd, ?_⟩
    rw [update_progress_eq progress speed eta file_size hd hg]
    exact storeGet_storeSet hg

open ProgressTrackerModel in
/-- Witness for `c4_snapshot_aliasing` at a concrete tracked state. -/
theorem c4_snapshot_aliasing_witness :
    0 ∈ get_all_downloads (add_download emptyTracker "a" "t") ∧
    storeGet (update_progress (add_download emptyTracker "a" "t")
        "a" 1 "s" "e" "f").store 0 =
      some ⟨"a", "t", "downloading", 1, "s", "e", "f", none⟩ :=
  c4_snapshot_aliasing.2 (add_download emptyTracker "a" "t") "a" 0
    ⟨"a", "t", "pending", 0, "", "", "", none⟩ 1 "s" "e" "f"
    (by decide) (by decide)

open ProgressTrackerModel in
/-- C5 counterexample: the tracker does not preserve
`progress ∈ [0, 1]` for arbitrary call sequences — `update` stores its
argument unclamped, so registering `"a"` and updating it with `2.0`
stores a record whose progress is `2`. -/
theorem c5_counterexample :
    getRecord (runOps [TrackerOp.reg "a" "t",
        TrackerOp.upd "a" 2 "" "" ""]) "a" =
      some ⟨"a", "t", "downloading", 2, "", "", "", none⟩ ∧
    ¬ ((2 : ℚ) ≤ 1) := by decide

open ProgressTrackerModel in
/-- C5 (corrected): for every sequence of
register/update/complete/fail/clear calls starting from the empty tracker
*in which every update's progress argument lies in `[0, 1]`*, every
stored record's progress lies in `[0, 1]`; the restriction on update is
necessary because the code stores the supplied value without clamping. -/
theorem c5_progress_invariant (ops : List TrackerOp)
    (h : ∀ op ∈ ops, OpInRange op) : StoreInRange (runOps ops) :=
  storeInRange_foldl ops emptyTracker (fun e he => by simp [emptyTracker] at he) h

open ProgressTrackerModel in
/-- Witness for `c5_progress_invariant` on a concrete call sequence. -/
theorem c5_progress_invariant_witness :
    (∀ op ∈ [TrackerOp.reg "a" "t", TrackerOp.upd "a" 1 "s" "e" "f",
        TrackerOp.complete "a", TrackerOp.fail "a" "403", TrackerOp.clear],
      OpInRange op) ∧
    StoreInRange (runOps [TrackerOp.reg "a" "t",
        TrackerOp.upd "a" 1 "s" "e" "f", TrackerOp.complete "a",
        TrackerOp.fail "a" "403", TrackerOp.clear]) :=
  ⟨by decide, c5_progress_invariant _ (by decide)⟩

/-- C7 (confirmed): for every `PlaylistDownloadResult` — whatever outcome
list it is constructed from, including the empty one, and whatever count
values the caller passes — `__post_init__` recomputes the derived counts,
so `total_successful + total_failed` equals the length of
`download_results`; the counts are functions of the outcome list and
cannot drift from it. -/
theorem c7_batch_counts_invariant (r : Models.PlaylistDownloadResult) :
    (Models.mkPlaylistDownloadResult r).total_successful +
        (Models.mkPlaylistDownloadResult r).total_failed =
      ((Models.mkPlaylistDownloadResult r).download_results.length : Int) := by
  simp [Models.mkPlaylistDownloadResult]

/-! ## Claims about batch selection filtering -/

namespace BatchSelection

theorem pyIdx_nonneg (len : Nat) (i : Int) (h : 0 ≤ i) :
    pyIdx len i = min i.toNat len := by
  unfold pyIdx
  rw [if_neg (by omega)]

theorem pyIdx_zero (len : Nat) : pyIdx len 0 = 0 := by
  simp [pyIdx]

theorem take_min_length {α : Type} (l : List α) (n : Nat) :
    l.take (min n l.length) = l.take n := by
  rw [← List.take_take, List.take_length]

/-- The selection block of `download_playlist` computes exactly the
clamped slice capped from the front: indices resolve to
`min (startIndex-1) L` and `min (endIndex or L) L`, and at most
`min maxItems 50` items are taken from the front of the slice. -/
theorem select_videos_eq {α : Type} (videos : List α)
    (opts : PlaylistOptions) (hsi : 1 ≤ opts.start_index)
    (hei : 0 ≤ opts.end_index) (hmv : 1 ≤ opts.max_videos) :
    select_videos videos opts =
      ((videos.take (min (if opts.end_index = 0 then videos.length
          else opts.end_index.toNat) videos.length)).drop
        (min (opts.start_index - 1).toNat videos.length)).take
        (min opts.max_videos 50).toNat := by
  unfold select_videos
  simp only [pySlice, pyIdx_zero, List.drop_zero]
  rw [pyIdx_nonneg _ _ (by omega),
      pyIdx_nonneg _ _ (by omega : (0:Int) ≤ max 0 (opts.start_index - 1)),
      pyIdx_nonneg _ _ (by positivity)]
  have h1 : (0 ⊔ (opts.start_index - 1)).toNat =
      (opts.start_index - 1).toNat := by
    omega
  have h2 : ((videos.length : Int) ⊓
        if opts.end_index = 0 then (videos.length : Int)
        else opts.end_index).toNat ⊓ videos.length =
      (if opts.end_index = 0 then videos.length
        else opts.end_index.toNat) ⊓ videos.length := by
    by_cases hE : opts.end_index = 0
    · simp only [if_pos hE]
      omega
    · simp only [if_neg hE]
      omega
  rw [take_min_length, h1, h2]

end BatchSelection

/-- C8 (confirmed): batch selection filtering.  For every collection and
every filter set in the spec's domain (`startIndex ≥ 1`, `endIndex ≥ 0`,
`maxItems ≥ 1`): the selection equals the slice of the collection whose
bounds are `startIndex-1` and `endIndex` clamped into `[0, L]` (with
`endIndex = 0` meaning the collection length), capped from the front —
at most `maxItems` items are kept; moreover for a 10-item collection,
`startIndex = 3`, `endIndex = 7` selects exactly items 3..7 (5 items),
and `endIndex = 0` selects through the end of the collection. -/
theorem c8_selection_filters :
    (∀ (α : Type) (videos : List α) (opts : BatchSelection.PlaylistOptions),
      1 ≤ opts.start_index → 0 ≤ opts.end_index → 1 ≤ opts.max_videos →
      BatchSelection.select_videos videos opts =
        ((videos.take (min (if opts.end_index = 0 then videos.length
            else opts.end_index.toNat) videos.length)).drop
          (min (opts.start_index - 1).toNat videos.length)).take
          (min opts.max_videos 50).toNat ∧
      (BatchSelection.select_videos videos opts).length ≤
        opts.max_videos.toNat) ∧
    BatchSelection.select_videos [1, 2, 3, 4, 5, 6, 7, 8, 9, 10]
        ⟨3, 7, false, true, 50⟩ = [3, 4, 5, 6, 7] ∧
    (∀ (α : Type) (videos : List α) (opts : BatchSelection.PlaylistOptions),
      opts.end_index = 0 → 1 ≤ opts.start_index → 1 ≤ opts.max_videos →
      BatchSelection.select_videos videos opts =
        (videos.drop (min (opts.start_index - 1).toNat videos.length)).take
          (min opts.max_videos 50).toNat) := by
  refine ⟨fun α videos opts hsi hei hmv => ⟨?_, ?_⟩, by decide,
    fun α videos opts hE hsi hmv => ?_⟩
  · exact BatchSelection.select_videos_eq videos opts hsi hei hmv
  · rw [BatchSelection.select_videos_eq videos opts hsi hei hmv]
    have := List.length_take ((min opts.max_videos 50).toNat)
      ((videos.take (min (if opts.end_index = 0 then videos.length
          else opts.end_index.toNat) videos.length)).drop
        (min (opts.start_index - 1).toNat videos.length))
    omega
  · rw [BatchSelection.select_videos_eq videos opts hsi (by omega) hmv,
      if_pos hE, min_self, List.take_length]

/-- Witness for `c8_selection_filters` at a concrete collection and
filter set. -/
theorem c8_selection_filters_witness :
    (1 : Int) ≤ 2 ∧ (0 : Int) ≤ 0 ∧ (1 : Int) ≤ 2 ∧
    (BatchSelection.select_videos [10, 20, 30, 40]
        (⟨2, 0, false, true, 2⟩ : BatchSelection.PlaylistOptions) =
      (([10, 20, 30, 40].take (min (if (0 : Int) = 0 then
          ([10, 20, 30, 40] : List ℕ).length else (0 : Int).toNat)
          ([10, 20, 30, 40] : List ℕ).length)).drop
        (min ((2 : Int) - 1).toNat ([10, 20, 30, 40] : List ℕ).length)).take
        (min (2 : Int) 50).toNat ∧
      (BatchSelection.select_videos [10, 20, 30, 40]
        (⟨2, 0, false, true, 2⟩ : BatchSelection.PlaylistOptions)).length ≤
        (2 : Int).toNat) :=
  ⟨by decide, by decide, by decide,
    c8_selection_filters.1 ℕ [10, 20, 30, 40] ⟨2, 0, false, true, 2⟩
      (by decide) (by decide) (by decide)⟩

/-- C2 concerns the `reverse_order` flag that the playlist form collects
and documents ("Download in reverse order"), but that `download_playlist`
never reads: with `reverseOrder = true` the code selects the first
`maxItems` of the *unreversed* slice, not of the reversed one, so the
documented reversal never happens. -/
theorem c2_reverse_ignored :
    BatchSelection.select_videos [10, 20, 30]
        (⟨1, 0, true, true, 2⟩ : BatchSelection.PlaylistOptions) =
      [10, 20] ∧
    BatchSelection.select_videos [10, 20, 30]
        (⟨1, 0, true, true, 2⟩ : BatchSelection.PlaylistOptions) ≠
      List.take 2 (List.reverse [10, 20, 30]) := by decide

/-! ## Claims about the fetch strategy engine -/

namespace Downloader

theorem tryStrategiesFrom_all_fail (backend : Nat → YdlOutcome)
    (h : ∀ k, (execute_download (backend k)).isSuccess = false) :
    ∀ n k, tryStrategiesFrom backend n k =
      (.failure "All download strategies failed", k + n) := by
  intro n
  induction n with
  | zero => intro k; rfl
  | succ n ih =>
      intro k
      unfold tryStrategiesFrom
      cases hr : execute_download (backend k) with
      | success t fn fp d vc vid =>
          have := h k
          rw [hr] at this
          simp [DlResult.isSuccess] at this
      | failure e =>
          rw [ih (k + 1)]
          have harith : k + 1 + n = k + (n + 1) := by omega
          rw [harith]

theorem downloadVideoLoop_all_fail (backend : Nat → YdlOutcome)
    (retry_count : Nat)
    (h : ∀ k, (execute_download (backend k)).isSuccess = false) :
    ∀ n k, downloadVideoLoop backend retry_count n k =
      (.failure ("Failed after " ++ toString retry_count ++ " attempts"),
        k + 4 * n) := by
  intro n
  induction n with
  | zero => intro k; rfl
  | succ n ih =>
      intro k
      unfold downloadVideoLoop
      rw [show try_download_strategies backend k =
          (DlResult.failure "All download strategies failed",
            k + strategyCount) from
        tryStrategiesFrom_all_fail backend h strategyCount k]
      show downloadVideoLoop backend retry_count n (k + strategyCount) = _
      rw [ih (k + strategyCount)]
      have harith : k + strategyCount + 4 * n = k + 4 * (n + 1) := by
        simp only [strategyCount]
        omega
      rw [harith]

end Downloader

open Downloader in
/-- C1 counterexample: against a backend whose every call fails with a
`403` marker and `maxAttempts = 3`, `download_video` does return a
Failure after exhausting all attempts and strategies — but its reported
error is the fixed message `"Failed after 3 attempts"`, not the last
error encountered: the per-call classified message
(`"Video access forbidden (403). ..."`, produced by
`_execute_download`) does not occur in the returned error, and the
returned error text classifies as `Other`, not `AccessForbidden` — the
classification is swallowed, not surfaced. -/
theorem c1_counterexample :
    (download_video backend403 3).1 = .failure "Failed after 3 attempts" ∧
    execute_download (backend403 0) =
      .failure
        "Video access forbidden (403). Video may be restricted or private." ∧
    strContains
        "Video access forbidden (403). Video may be restricted or private."
        "Failed after 3 attempts" = false ∧
    strContains "403" "Failed after 3 attempts" = false ∧
    classify_error_message "Failed after 3 attempts" ≠
      ErrorClass.accessForbidden := by decide

open Downloader in
/-- C1 (corrected): when fetch exhausts every attempt and every strategy
(for any `maxAttempts` and any backend whose calls all fail), the
returned outcome is a Failure whose error is the generic message
`"Failed after {maxAttempts} attempts"` — annotated with the attempt
count but carrying neither the last error encountered nor its
classification, which are produced per call and then discarded; exactly
`4 * maxAttempts` backend calls are made. -/
theorem c1_exhausted_failure (backend : Nat → YdlOutcome)
    (retry_count : Nat)
    (h : ∀ k, (execute_download (backend k)).isSuccess = false) :
    download_video backend retry_count =
      (.failure ("Failed after " ++ toString retry_count ++ " attempts"),
        4 * retry_count) := by
  unfold download_video
  rw [downloadVideoLoop_all_fail backend retry_count h retry_count 0,
    Nat.zero_add]

open Downloader in
/-- Witness for `c1_exhausted_failure` at the all-403 backend stub with
three attempts. -/
theorem c1_exhausted_failure_witness :
    (∀ k, (execute_download (backend403 k)).isSuccess = false) ∧
    download_video backend403 3 =
      (.failure "Failed after 3 attempts", 12) :=
  ⟨fun _ => rfl, by
    rw [c1_exhausted_failure backend403 3 (fun _ => rfl)]
    rfl⟩

open Downloader in
/-- C6 counterexample: with the always-403 backend stub and
`maxAttempts = 3`, fetch does make exactly 12 backend calls and returns
Failure — but the returned Failure is not classified `AccessForbidden`:
its error text is the generic `"Failed after 3 attempts"`, which
classifies as `Other`. -/
theorem c6_counterexample :
    download_video backend403 3 =
      (.failure "Failed after 3 attempts", 12) ∧
    classify_error_message "Failed after 3 attempts" ≠
      ErrorClass.accessForbidden ∧
    classify_error_message "Failed after 3 attempts" =
      ErrorClass.other := by decide

open Downloader in
/-- C6 (corrected): given any backend stub whose calls all fail with a
`"403"` marker, fetch with `maxAttempts = 3` and the 4-strategy list
makes exactly 12 backend calls (3 attempts × 4 strategies) and returns
Failure with the generic message `"Failed after 3 attempts"`; every
individual call is classified access-forbidden by `_execute_download`,
but that classification stays internal. -/
theorem c6_twelve_calls (backend : Nat → YdlOutcome)
    (h : ∀ k, ∃ m, backend k = .downloadError m ∧
      strContains "403" m = true) :
    download_video backend 3 = (.failure "Failed after 3 attempts", 12) ∧
    ∀ k, execute_download (backend k) =
      .failure
        "Video access forbidden (403). Video may be restricted or private." := by
  have hexec : ∀ k, execute_download (backend k) =
      .failure
        "Video access forbidden (403). Video may be restricted or private." := by
    intro k
    obtain ⟨m, hm, h403⟩ := h k
    rw [hm]
    simp only [execute_download]
    rw [if_pos h403]
  refine ⟨?_, hexec⟩
  have hfail : ∀ k, (execute_download (backend k)).isSuccess = false := by
    intro k
    rw [hexec k]
    rfl
  unfold download_video
  rw [downloadVideoLoop_all_fail backend 3 hfail 3 0]
  rfl

open Downloader in
/-- Witness for `c6_twelve_calls` at the concrete all-403 backend stub. -/
theorem c6_twelve_calls_witness :
    (∀ k, ∃ m, backend403 k = YdlOutcome.downloadError m ∧
      strContains "403" m = true) ∧
    (download_video backend403 3 =
        (.failure "Failed after 3 attempts", 12) ∧
      ∀ k, execute_download (backend403 k) =
        .failure
          "Video access forbidden (403). Video may be restricted or private.") :=
  ⟨fun _ => ⟨"HTTP Error 403: Forbidden", rfl, rfl⟩,
    c6_twelve_calls backend403
      (fun _ => ⟨"HTTP Error 403: Forbidden", rfl, rfl⟩)⟩

/-! ## Claims about URL classification and normalization -/

namespace URLValidator

theorem stripLit_eq_some {lit s r : List Char} (h : stripLit lit s = some r) :
    s = lit ++ r := by
  induction lit generalizing s with
  | nil =>
      simp only [stripLit, Option.some.injEq] at h
      simp [h]
  | cons l ls ih =>
      cases s with
      | nil => simp [stripLit] at h
      | cons c cs =>
          simp only [stripLit] at h
          split at h
          · next hc => rw [List.cons_append, ← ih h, hc]
          · exact absurd h (by simp)

theorem takeCount_eq_some :
    ∀ {n : Nat} {s v : List Char}, takeCount n s = some v →
      v.length = n ∧ ∀ c ∈ v, idChar c := by
  intro n
  induction n with
  | zero =>
      intro s v h
      simp only [takeCount, Option.some.injEq] at h
      simp [← h]
  | succ n ih =>
      intro s v h
      cases s with
      | nil => simp [takeCount] at h
      | cons c cs =>
          simp only [takeCount] at h
          split at h
          · next hc =>
              cases hv : takeCount n cs with
              | none => rw [hv] at h; simp at h
              | some w =>
                  rw [hv] at h
                  simp only [Option.map_some', Option.some.injEq] at h
                  obtain ⟨hl, hall⟩ := ih hv
                  subst h
                  refine ⟨by simp [hl], ?_⟩
                  intro x hx
                  rcases List.mem_cons.mp hx with hx | hx
                  · rw [hx]; exact hc
                  · exact hall x hx
          · exact absurd h (by simp)

theorem takeCount_append {v : List Char} (rest : List Char)
    (hall : ∀ c ∈ v, idChar c) :
    takeCount v.length (v ++ rest) = some v := by
  induction v with
  | nil => rfl
  | cons c cs ih =>
      simp only [List.length_cons, List.cons_append, takeCount,
        List.append_eq]
      rw [if_pos (hall c (by simp))]
      rw [ih (fun x hx => hall x (by simp [hx]))]
      rfl

theorem takeCount_self {v : List Char} (h1 : v.length = 11)
    (hall : ∀ c ∈ v, idChar c) : takeCount 11 v = some v := by
  have := takeCount_append [] hall
  rw [List.append_nil, h1] at this
  exact this

theorem matchVideoPattern_props {sub body s v : List Char}
    (h : matchVideoPattern sub body s = some v) :
    v.length = 11 ∧ ∀ c ∈ v, idChar c := by
  unfold matchVideoPattern at h
  split at h
  · exact takeCount_eq_some h
  · exact absurd h (by simp)

theorem videoPatternsMatch_props {s v : List Char}
    (h : videoPatternsMatch s = some v) :
    v.length = 11 ∧ ∀ c ∈ v, idChar c := by
  unfold videoPatternsMatch at h
  split at h
  · next hm => injection h with h; subst h; exact matchVideoPattern_props hm
  · split at h
    · next hm => injection h with h; subst h; exact matchVideoPattern_props hm
    · split at h
      · next hm =>
          injection h with h
          subst h
          exact matchVideoPattern_props hm
      · exact matchVideoPattern_props h

theorem lastListCapture_props :
    ∀ {l v : List Char}, lastListCapture l = some v →
      ¬ v.isEmpty ∧ ∀ c ∈ v, idChar c := by
  intro l
  induction l with
  | nil => intro v h; simp [lastListCapture] at h
  | cons c cs ih =>
      intro v h
      unfold lastListCapture at h
      split at h
      · exact absurd h (by simp)
      · split at h
        · next hr => injection h with h; subst h; exact ih hr
        · split at h
          · next rest hstrip =>
              split at h
              · exact absurd h (by simp)
              · next hne =>
                  injection h with h
                  subst h
                  refine ⟨by simpa using hne, ?_⟩
                  intro x hx
                  exact List.mem_takeWhile_imp hx
          · exact absurd h (by simp)

theorem playlistPatternsMatch_props {s v : List Char}
    (h : playlistPatternsMatch s = some v) :
    ¬ v.isEmpty ∧ ∀ c ∈ v, idChar c := by
  unfold playlistPatternsMatch at h
  split at h
  · next hm =>
      injection h with h
      subst h
      unfold matchPlaylistPattern1 at hm
      split at hm
      · split at hm
        · exact absurd hm (by simp)
        · next hne =>
            injection hm with hm
            subst hm
            refine ⟨by simpa using hne, ?_⟩
            intro x hx
            exact List.mem_takeWhile_imp hx
      · exact absurd hm (by simp)
  · unfold matchPlaylistPattern2 at h
    split at h
    · exact lastListCapture_props h
    · exact absurd h (by simp)

end URLValidator

namespace URLValidator

theorem videoPatternsMatch_videoCanon {vid : List Char}
    (h1 : vid.length = 11) (hall : ∀ c ∈ vid, idChar c) :
    videoPatternsMatch (videoCanon vid) = some vid := by
  have hm : matchVideoPattern "www.".toList "youtube.com/watch?v=".toList
      (videoCanon vid) = takeCount 11 vid := rfl
  unfold videoPatternsMatch
  rw [hm, takeCount_self h1 hall]

theorem is_valid_video_videoCanon {vid : List Char}
    (h1 : vid.length = 11) (hall : ∀ c ∈ vid, idChar c) :
    is_valid_youtube_url (videoCanon vid) = true := by
  have : is_valid_youtube_url (videoCanon vid) =
      (videoPatternsMatch (videoCanon vid)).isSome := rfl
  rw [this, videoPatternsMatch_videoCanon h1 hall]
  rfl

theorem normalize_url_videoCanon {vid : List Char}
    (h1 : vid.length = 11) (hall : ∀ c ∈ vid, idChar c) :
    normalize_url (videoCanon vid) = videoCanon vid := by
  have hne : vid.isEmpty = false := by
    cases vid with
    | nil => simp at h1
    | cons _ _ => rfl
  unfold normalize_url
  rw [is_valid_video_videoCanon h1 hall]
  simp only [if_true, videoPatternsMatch_videoCanon h1 hall,
    extract_video_id, hne]
  rfl

theorem videoPatternsMatch_playlistCanon (pid : List Char) :
    videoPatternsMatch (playlistCanon pid) = none := rfl

theorem playlistPatternsMatch_playlistCanon {pid : List Char}
    (hne : pid.isEmpty = false) (hall : ∀ c ∈ pid, idChar c) :
    playlistPatternsMatch (playlistCanon pid) = some pid := by
  have htw : pid.takeWhile idChar = pid :=
    List.takeWhile_eq_self_iff.mpr hall
  have hm : matchPlaylistPattern1 (playlistCanon pid) =
      if (pid.takeWhile idChar).isEmpty then none
      else some (pid.takeWhile idChar) := rfl
  rw [htw, hne] at hm
  simp only [Bool.false_eq_true, if_false] at hm
  unfold playlistPatternsMatch
  rw [hm]

theorem is_valid_playlist_playlistCanon {pid : List Char}
    (hne : pid.isEmpty = false) (hall : ∀ c ∈ pid, idChar c) :
    is_valid_youtube_playlist_url (playlistCanon pid) = true := by
  have : is_valid_youtube_playlist_url (playlistCanon pid) =
      (playlistPatternsMatch (playlistCanon pid)).isSome := rfl
  rw [this, playlistPatternsMatch_playlistCanon hne hall]
  rfl

theorem is_valid_video_playlistCanon (pid : List Char) :
    is_valid_youtube_url (playlistCanon pid) = false := rfl

theorem normalize_url_playlistCanon {pid : List Char}
    (hne : pid.isEmpty = false) (hall : ∀ c ∈ pid, idChar c) :
    normalize_url (playlistCanon pid) = playlistCanon pid := by
  unfold normalize_url
  rw [is_valid_video_playlistCanon pid]
  simp only [Bool.false_eq_true, if_false]
  rw [is_valid_playlist_playlistCanon hne hall]
  simp only [if_true, extract_playlist_id,
    playlistPatternsMatch_playlistCanon hne hall, hne]
  rfl

theorem exists_extract_video_of_valid {s : List Char}
    (hv : is_valid_youtube_url s = true) :
    ∃ v, extract_video_id s = some v := by
  cases s with
  | nil => simp [is_valid_youtube_url] at hv
  | cons c cs =>
      have : (videoPatternsMatch (c :: cs)).isSome = true := hv
      exact Option.isSome_iff_exists.mp this

theorem exists_extract_playlist_of_valid {s : List Char}
    (hp : is_valid_youtube_playlist_url s = true) :
    ∃ v, extract_playlist_id s = some v := by
  cases s with
  | nil => simp [is_valid_youtube_playlist_url] at hp
  | cons c cs =>
      have : (playlistPatternsMatch (c :: cs)).isSome = true := hp
      exact Option.isSome_iff_exists.mp this

theorem normalize_url_of_video {s v : List Char}
    (hv : is_valid_youtube_url s = true)
    (he : extract_video_id s = some v) :
    normalize_url s = videoCanon v := by
  obtain ⟨h1, _⟩ := videoPatternsMatch_props he
  have hne : v.isEmpty = false := by
    cases v with
    | nil => simp at h1
    | cons _ _ => rfl
  simp only [normalize_url, hv, if_true, he, hne]
  rfl

theorem normalize_url_of_playlist {s p : List Char}
    (hv : is_valid_youtube_url s = false)
    (hp : is_valid_youtube_playlist_url s = true)
    (he : extract_playlist_id s = some p) :
    normalize_url s = playlistCanon p := by
  obtain ⟨hne', _⟩ := playlistPatternsMatch_props he
  have hne : p.isEmpty = false := by
    cases hb : p.isEmpty
    · rfl
    · exact absurd hb hne'
  simp only [normalize_url, hv, Bool.false_eq_true, if_false, hp, if_true,
    he, hne]

theorem normalize_url_of_invalid {s : List Char}
    (hv : is_valid_youtube_url s = false)
    (hp : is_valid_youtube_playlist_url s = false) :
    normalize_url s = s := by
  simp only [normalize_url, hv, hp, Bool.false_eq_true, if_false]

theorem lastListCapture_all_id :
    ∀ {l : List Char}, (∀ c ∈ l, idChar c) → lastListCapture l = none := by
  intro l
  induction l with
  | nil => intro _; rfl
  | cons c cs ih =>
      intro h
      have hc : idChar c := h c (by simp)
      have hcn : ¬ c = '\n' := by
        intro hcc
        rw [hcc] at hc
        exact absurd hc (by decide)
      unfold lastListCapture
      rw [if_neg hcn, ih (fun x hx => h x (by simp [hx]))]
      cases hs : stripLit "list=".toList (c :: cs) with
      | none => rfl
      | some rest =>
          have heq := stripLit_eq_some hs
          have hmem : '=' ∈ c :: cs := by
            rw [heq]
            simp
          exact absurd (h '=' hmem) (by decide)

theorem playlistPatternsMatch_videoCanon {vid : List Char}
    (hall : ∀ c ∈ vid, idChar c) :
    playlistPatternsMatch (videoCanon vid) = none := by
  have hm2 : matchPlaylistPattern2 (videoCanon vid) =
      lastListCapture ('v' :: '=' :: vid) := rfl
  have h2 : lastListCapture ('=' :: vid) = none := by
    unfold lastListCapture
    rw [if_neg (by decide : ¬ '=' = '\n'), lastListCapture_all_id hall]
    rfl
  have hllc : lastListCapture ('v' :: '=' :: vid) = none := by
    unfold lastListCapture
    rw [if_neg (by decide : ¬ 'v' = '\n'), h2]
    rfl
  have hm1 : matchPlaylistPattern1 (videoCanon vid) = none := rfl
  unfold playlistPatternsMatch
  rw [hm1]
  show matchPlaylistPattern2 (videoCanon vid) = none
  rw [hm2, hllc]

theorem is_valid_playlist_videoCanon {vid : List Char}
    (hall : ∀ c ∈ vid, idChar c) :
    is_valid_youtube_playlist_url (videoCanon vid) = false := by
  have : is_valid_youtube_playlist_url (videoCanon vid) =
      (playlistPatternsMatch (videoCanon vid)).isSome := rfl
  rw [this, playlistPatternsMatch_videoCanon hall]
  rfl

end URLValidator

open URLValidator in
/-- C9 (confirmed): URL classification/normalization is idempotent.  For
every input string `u`, classifying `normalize_url u` yields the same
kind, the same extracted identifier and the same normalized URL as
classifying `u` itself; in particular
`normalize_url (normalize_url u) = normalize_url u`. -/
theorem c9_classify_idempotent (s : List Char) :
    classify (normalize_url s) = classify s := by
  cases hv : is_valid_youtube_url s with
  | true =>
      obtain ⟨v, he⟩ := exists_extract_video_of_valid hv
      obtain ⟨h1, hall⟩ := videoPatternsMatch_props he
      have hnorm := normalize_url_of_video hv he
      have hec : extract_video_id (videoCanon v) = some v :=
        videoPatternsMatch_videoCanon h1 hall
      rw [hnorm]
      simp [classify, hv, is_valid_video_videoCanon h1 hall,
        normalize_url_videoCanon h1 hall, hnorm, he, hec]
  | false =>
      cases hp : is_valid_youtube_playlist_url s with
      | true =>
          obtain ⟨p, hep⟩ := exists_extract_playlist_of_valid hp
          obtain ⟨hne', hall⟩ := playlistPatternsMatch_props hep
          have hne : p.isEmpty = false := by
            cases hb : p.isEmpty
            · rfl
            · exact absurd hb hne'
          have hnorm := normalize_url_of_playlist hv hp hep
          have hepc : extract_playlist_id (playlistCanon p) = some p :=
            playlistPatternsMatch_playlistCanon hne hall
          rw [hnorm]
          simp [classify, hv, hp, is_valid_video_playlistCanon p,
            is_valid_playlist_playlistCanon hne hall,
            normalize_url_playlistCanon hne hall, hnorm, hep, hepc]
      | false =>
          rw [normalize_url_of_invalid hv hp]

open URLValidator in
/-- C10 (confirmed): for every URL that matches both a single-item
pattern and a collection pattern (a watch link carrying a `list=`
parameter), normalization returns the single-video canonical form
`https://www.youtube.com/watch?v=<id>` and drops the playlist parameter:
the video patterns take precedence, and the normalized form is never
recognized as a collection URL. -/
theorem c10_video_precedence (s : List Char)
    (hv : is_valid_youtube_url s = true)
    (_hp : is_valid_youtube_playlist_url s = true) :
    ∃ vid, extract_video_id s = some vid ∧
      normalize_url s = videoCanon vid ∧
      is_valid_youtube_url (normalize_url s) = true ∧
      is_valid_youtube_playlist_url (normalize_url s) = false := by
  obtain ⟨v, he⟩ := exists_extract_video_of_valid hv
  obtain ⟨h1, hall⟩ := videoPatternsMatch_props he
  have hnorm := normalize_url_of_video hv he
  exact ⟨v, he, hnorm,
    by rw [hnorm]; exact is_valid_video_videoCanon h1 hall,
    by rw [hnorm]; exact is_valid_playlist_videoCanon hall⟩

open URLValidator in
/-- Witness for `c10_video_precedence` at a watch URL carrying a
playlist parameter. -/
theorem c10_video_precedence_witness :
    is_valid_youtube_url
        "https://www.youtube.com/watch?v=dQw4w9WgXcQ&list=PLabc".toList =
      true ∧
    is_valid_youtube_playlist_url
        "https://www.youtube.com/watch?v=dQw4w9WgXcQ&list=PLabc".toList =
      true ∧
    ∃ vid, extract_video_id
        "https://www.youtube.com/watch?v=dQw4w9WgXcQ&list=PLabc".toList =
        some vid ∧
      normalize_url
          "https://www.youtube.com/watch?v=dQw4w9WgXcQ&list=PLabc".toList =
        videoCanon vid ∧
      is_valid_youtube_url (normalize_url
          "https://www.youtube.com/watch?v=dQw4w9WgXcQ&list=PLabc".toList) =
        true ∧
      is_valid_youtube_playlist_url (normalize_url
          "https://www.youtube.com/watch?v=dQw4w9WgXcQ&list=PLabc".toList) =
        false :=
  ⟨by decide, by decide,
    c10_video_precedence _ (by decide) (by decide)⟩
